import Mathlib

/-!
Verification of the avkeys keybind-expression compiler.

This file shallowly embeds the algorithmic core of the repository:
the key/parameter data model of `common/src/key.rs`, the key-parameter
catalog, the term parser and lowering of `macros/src/key.rs`, the
alias registry generated by the `keycodes` macro of `macros/src/lib.rs`
together with the shipped alias table of `src/lib.rs`, and the keybind
validation pipeline of the `AvKeybind` attribute in `macros/src/lib.rs`.
All definitions are executable; theorems about them follow at the end.
-/

/-- KeyCode models the `KeyCode = u32` alias of `common/src/key.rs`.
All codes appearing in the program are tiny, and no arithmetic is ever
performed on them, so natural numbers embed them faithfully. -/
abbrev KeyCode := Nat

/-- Key parameter kinds, from `enum AvKeyParameter` in `common/src/key.rs`. -/
inductive AvKeyParameter
  | DigitKey
  | FunctionKey
deriving DecidableEq, Repr, Fintype

/-- Codes of the digit keys `0`..`9`, from `const DIGIT_KEYS` in `common/src/key.rs`;
the index of a code in this list is the visible digit it labels. -/
def DIGIT_KEYS : List KeyCode := [11, 2, 3, 4, 5, 6, 7, 8, 9, 10]

/-- Codes of the function keys `F1`..`F12`, from `const FUNCTION_KEYS` in `common/src/key.rs`. -/
def FUNCTION_KEYS : List KeyCode := [59, 60, 61, 62, 63, 64, 65, 66, 67, 68, 87, 88]

/-- Membership sequence of a parameter kind, from `AvKeyParameter::keys`. -/
def AvKeyParameter.keys : AvKeyParameter → List KeyCode
  | .DigitKey => DIGIT_KEYS
  | .FunctionKey => FUNCTION_KEYS

/-- Helper compiling Rust's `.iter().enumerate().find(|(_, k)| **k == key)`:
returns the index (counting from `i`) of the first occurrence of `key`. -/
def findValue : Nat → List KeyCode → KeyCode → Option Nat
  | _, [], _ => none
  | i, k :: ks, key => if k = key then some i else findValue (i + 1) ks key

/-- Ordinal of a code within a parameter kind, from `AvKeyParameter::value` in
`common/src/key.rs`: digit keys return the found index directly, function keys
return the found index plus one. -/
def AvKeyParameter.value : AvKeyParameter → KeyCode → Option Nat
  | .DigitKey, key => findValue 0 DIGIT_KEYS key
  | .FunctionKey, key => (findValue 0 FUNCTION_KEYS key).map (· + 1)

/-- A key term, from `enum AvKey` in `common/src/key.rs`. -/
inductive AvKey
  | Key (c : KeyCode)
  | Parameter (p : AvKeyParameter)
deriving DecidableEq, Repr

/-- The partial equality of `impl PartialEq for AvKey` in `common/src/key.rs`.
The `Parameter == Parameter` arm of the source is `unimplemented!()`, which
panics; that divergence is modelled as `none`, every defined arm as `some`. -/
def avKeyEq : AvKey → AvKey → Option Bool
  | .Key l, .Key r => some (l == r)
  | .Parameter _, .Parameter _ => none
  | .Key l, .Parameter r => some (r.keys.contains l)
  | .Parameter l, .Key r => some (l.keys.contains r)

/-- Key-parameter catalog, from `KEY_PARAMS` in `macros/src/key.rs`: short tag
to parameter kind (the source stores the path of the corresponding
`AvKeyParameter` variant; the variant itself is recorded here). -/
def KEY_PARAMS : List (String × AvKeyParameter) :=
  [("d", AvKeyParameter.DigitKey), ("f", AvKeyParameter.FunctionKey)]

/-- Catalog lookup, modelling `KEY_PARAMS.get(tag)`. -/
def keyParamsGet (tag : String) : Option AvKeyParameter :=
  (KEY_PARAMS.find? (fun p => p.1 == tag)).map (fun p => p.2)

/-- Discriminants usable to name a key, from `enum ParsedKeyDisc` in `macros/src/key.rs`. -/
inductive ParsedKeyDisc
  | LitInt (n : Nat)
  | LitChar (c : Char)
  | Ident (s : String)
deriving DecidableEq, Repr

/-- One parsed key term, from `enum ParsedKey` in `macros/src/key.rs`. -/
inductive ParsedKey
  | Name (d : ParsedKeyDisc)
  | Code (n : Nat)
  | Parameter (tag : String)
deriving DecidableEq, Repr

/-- Shape of one surface token of a keybind expression, as `impl Parse for
ParsedKey` distinguishes them by peeking: a bracketed integer, a braced
identifier, a bare integer literal, a bare identifier, or a char literal. -/
inductive Token
  | bracket (n : Nat)
  | brace (tag : String)
  | litInt (n : Nat)
  | ident (s : String)
  | litChar (c : Char)
deriving DecidableEq, Repr

/-- Token classification of `impl Parse for ParsedKey` in `macros/src/key.rs`:
brackets become raw `Code` terms, braces become `Parameter` terms, and
everything else (including a bare integer literal) becomes a `Name` term. -/
def parseKey : Token → ParsedKey
  | .bracket n => .Code n
  | .brace tag => .Parameter tag
  | .litInt n => .Name (.LitInt n)
  | .ident s => .Name (.Ident s)
  | .litChar c => .Name (.LitChar c)

/-- Alias spellings of a key, from `enum KeyIdentifier` in `macros/src/keycode.rs`. -/
inductive KeyIdentifier
  | LitInt (n : Nat)
  | Ident (s : String)
  | LitChar (c : Char)
deriving DecidableEq, Repr

/-- String form of an alias, from `impl ToString for KeyIdentifier`. -/
def keyIdentStr : KeyIdentifier → String
  | .LitInt n => toString n
  | .Ident s => s
  | .LitChar c => String.mk [c]

/-- One keycode definition, from `ParseKeyCodeDefinition` in `macros/src/keycode.rs`:
a primary name, a code, and the optional `match [...]` alias list. -/
structure KeyDef where
  primary : String
  code : Nat
  aliases : List KeyIdentifier
deriving DecidableEq, Repr

/-- All aliases of a definition including the primary, in the order produced by
`ParseKeyCodeDefinition::aliases` (the `match` list first, then the primary). -/
def KeyDef.allAliases (k : KeyDef) : List KeyIdentifier :=
  k.aliases ++ [KeyIdentifier.Ident k.primary]

/-- Every alias spelling of a definition in its string form, as the generated
`lookup_const` string table (`lookup_str`) spells them. -/
def aliasStrings (k : KeyDef) : List String :=
  k.allAliases.map keyIdentStr

/-- Variants of the `Key` enum emitted by the `keycodes` macro
(`macros/src/lib.rs`, `definitions`): one variant per identifier alias. -/
def variantNames (ks : List KeyDef) : List String :=
  ks.flatMap fun k => k.allAliases.filterMap fun a =>
    match a with
    | .Ident s => some s
    | _ => none

/-- Whether the code emitted by the `keycodes` macro is accepted by the Rust
compiler. The macro itself performs no collision check; the only way a
collision can stop the build is that two identifier aliases generate the same
variant of the emitted `Key` enum, which the compiler rejects as a duplicate
definition. Duplicate literal match arms in the generated lookups are accepted
(the first arm wins). -/
def buildAccepted (ks : List KeyDef) : Bool :=
  decide (variantNames ks).Nodup

/-- Match arms of the generated `From<Key> for KeyCode` (`ident_lookups` in
`macros/src/lib.rs`): every identifier alias maps to its definition's code. -/
def identArms (ks : List KeyDef) : List (String × Nat) :=
  ks.flatMap fun k => k.allAliases.filterMap fun a =>
    match a with
    | .Ident s => some (s, k.code)
    | _ => none

/-- Resolution of a `Key` enum variant to its code via the first matching
`ident_lookups` arm; `none` models a variant that does not exist. -/
def variantCode (ks : List KeyDef) (s : String) : Option Nat :=
  ((identArms ks).find? (fun p => p.1 == s)).map (fun p => p.2)

/-- Match arms of the generated char lookup (`lookup_chars` in
`macros/src/lib.rs`): every char alias maps to its definition's primary. -/
def charArms (ks : List KeyDef) : List (Char × String) :=
  ks.flatMap fun k => k.allAliases.filterMap fun a =>
    match a with
    | .LitChar c => some (c, k.primary)
    | _ => none

/-- Match arms of the generated int lookup (`lookup_ints` in
`macros/src/lib.rs`): every int alias maps to its definition's primary. -/
def intArms (ks : List KeyDef) : List (Nat × String) :=
  ks.flatMap fun k => k.allAliases.filterMap fun a =>
    match a with
    | .LitInt n => some (n, k.primary)
    | _ => none

/-- Char lookup composed with variant-to-code resolution, as
`Key::lookup_const(char)` followed by `.into()` behaves. -/
def lookupCharCode (ks : List KeyDef) (c : Char) : Option Nat :=
  (((charArms ks).find? (fun p => p.1 == c)).map (fun p => p.2)).bind (variantCode ks)

/-- Int lookup composed with variant-to-code resolution, as
`Key::lookup_const(int)` followed by `.into()` behaves. -/
def lookupIntCode (ks : List KeyDef) (n : Nat) : Option Nat :=
  (((intArms ks).find? (fun p => p.1 == n)).map (fun p => p.2)).bind (variantCode ks)

/-- Lowering of a parsed term to an `AvKey`, from `ParsedKey::to_lookup` in
`macros/src/key.rs`. A `Name(Ident)` term expands to `Key::ident.into()`, i.e.
resolution of the named variant to its code; `Name(LitChar)` and
`Name(LitInt)` expand to `Key::lookup_const(..)` over the char and int alias
tables; a `Code` term becomes `AvKey::Key(code)` with no registry involvement;
a `Parameter` term resolves its tag in the catalog. The source panics (via
`expect` / `unwrap`) where this model returns `none`. -/
def toLookup (reg : List KeyDef) : ParsedKey → Option AvKey
  | .Name (.Ident s) => (variantCode reg s).map AvKey.Key
  | .Name (.LitChar c) => (lookupCharCode reg c).map AvKey.Key
  | .Name (.LitInt n) => (lookupIntCode reg n).map AvKey.Key
  | .Code n => some (AvKey.Key n)
  | .Parameter tag => (keyParamsGet tag).map AvKey.Parameter

/-- Definitions 1 of 5 of the shipped `keycodes!` table of `src/lib.rs`, in source order. -/
def keycodesPart1 : List KeyDef :=
  [⟨"Escape", 1, [.Ident "Esc"]⟩,
   ⟨"Digit1", 2, [.LitChar '1', .Ident "Dig1"]⟩,
   ⟨"Digit2", 3, [.LitChar '2', .Ident "Dig2"]⟩,
   ⟨"Digit3", 4, [.LitChar '3', .Ident "Dig3"]⟩,
   ⟨"Digit4", 5, [.LitChar '4', .Ident "Dig4"]⟩,
   ⟨"Digit5", 6, [.LitChar '5', .Ident "Dig5"]⟩,
   ⟨"Digit6", 7, [.LitChar '6', .Ident "Dig6"]⟩,
   ⟨"Digit7", 8, [.LitChar '7', .Ident "Dig7"]⟩,
   ⟨"Digit8", 9, [.LitChar '8', .Ident "Dig8"]⟩,
   ⟨"Digit9", 10, [.LitChar '9', .Ident "Dig9"]⟩,
   ⟨"Digit0", 11, [.LitChar '0', .Ident "Dig0"]⟩,
   ⟨"Minus", 12, [.LitChar '-']⟩,
   ⟨"Equal", 13, [.LitChar '=']⟩,
   ⟨"Backspace", 14, []⟩,
   ⟨"Tab", 15, [.LitChar (Char.ofNat 0x21B9)]⟩,
   ⟨"Q", 16, []⟩,
   ⟨"W", 17, []⟩,
   ⟨"E", 18, []⟩,
   ⟨"R", 19, []⟩,
   ⟨"T", 20, []⟩,
   ⟨"Y", 21, []⟩,
   ⟨"U", 22, []⟩,
   ⟨"I", 23, []⟩,
   ⟨"O", 24, []⟩,
   ⟨"P", 25, []⟩]

/-- Definitions 2 of 5 of the shipped `keycodes!` table of `src/lib.rs`, in source order. -/
def keycodesPart2 : List KeyDef :=
  [⟨"LeftBrace", 26, [.LitChar '[']⟩,
   ⟨"RightBrace", 27, [.LitChar ']']⟩,
   ⟨"Enter", 28, []⟩,
   ⟨"LeftCtrl", 29, [.Ident "Ctrl"]⟩,
   ⟨"A", 30, []⟩,
   ⟨"S", 31, []⟩,
   ⟨"D", 32, []⟩,
   ⟨"F", 33, []⟩,
   ⟨"G", 34, []⟩,
   ⟨"H", 35, []⟩,
   ⟨"J", 36, []⟩,
   ⟨"K", 37, []⟩,
   ⟨"L", 38, []⟩,
   ⟨"Semicolon", 39, [.LitChar ';']⟩,
   ⟨"Apostrophe", 40, [.LitChar (Char.ofNat 39)]⟩,
   ⟨"Grave", 41, [.LitChar (Char.ofNat 96)]⟩,
   ⟨"LeftShift", 42, [.Ident "Shift"]⟩,
   ⟨"BackSlash", 43, []⟩,
   ⟨"Z", 44, []⟩,
   ⟨"X", 45, []⟩,
   ⟨"C", 46, []⟩,
   ⟨"V", 47, []⟩,
   ⟨"B", 48, []⟩,
   ⟨"N", 49, []⟩,
   ⟨"M", 50, []⟩]

/-- Definitions 3 of 5 of the shipped `keycodes!` table of `src/lib.rs`, in source order. -/
def keycodesPart3 : List KeyDef :=
  [⟨"Comma", 51, [.LitChar ',']⟩,
   ⟨"Dot", 52, [.LitChar '.']⟩,
   ⟨"Slash", 53, [.LitChar '/']⟩,
   ⟨"RightShift", 54, []⟩,
   ⟨"KeyPadAsterisk", 55, []⟩,
   ⟨"LeftAlt", 56, [.Ident "Alt"]⟩,
   ⟨"Space", 57, []⟩,
   ⟨"CapsLock", 58, []⟩,
   ⟨"F1", 59, []⟩,
   ⟨"F2", 60, []⟩,
   ⟨"F3", 61, []⟩,
   ⟨"F4", 62, []⟩,
   ⟨"F5", 63, []⟩,
   ⟨"F6", 64, []⟩,
   ⟨"F7", 65, []⟩,
   ⟨"F8", 66, []⟩,
   ⟨"F9", 67, []⟩,
   ⟨"F10", 68, []⟩,
   ⟨"NumLock", 69, []⟩,
   ⟨"ScrollLock", 70, []⟩,
   ⟨"KeyPad7", 71, []⟩,
   ⟨"KeyPad8", 72, []⟩,
   ⟨"KeyPad9", 73, []⟩,
   ⟨"KeyPadMinus", 74, []⟩,
   ⟨"KeyPad4", 75, []⟩]

/-- Definitions 4 of 5 of the shipped `keycodes!` table of `src/lib.rs`, in source order. -/
def keycodesPart4 : List KeyDef :=
  [⟨"KeyPad5", 76, []⟩,
   ⟨"KeyPad6", 77, []⟩,
   ⟨"KeyPadPlus", 78, []⟩,
   ⟨"KeyPad1", 79, []⟩,
   ⟨"KeyPad2", 80, []⟩,
   ⟨"KeyPad3", 81, []⟩,
   ⟨"KeyPad0", 82, []⟩,
   ⟨"KeyPadDot", 83, []⟩,
   ⟨"F11", 87, []⟩,
   ⟨"F12", 88, []⟩,
   ⟨"KeyPadEnter", 96, []⟩,
   ⟨"RightCtrl", 97, []⟩,
   ⟨"KeyPadSlash", 98, []⟩,
   ⟨"SysRq", 99, []⟩,
   ⟨"RightAlt", 100, []⟩,
   ⟨"Home", 102, []⟩,
   ⟨"UpArrow", 103, []⟩,
   ⟨"PageUp", 104, []⟩,
   ⟨"LeftArrow", 105, []⟩,
   ⟨"RightArrow", 106, []⟩,
   ⟨"End", 107, []⟩,
   ⟨"DownArrow", 108, []⟩,
   ⟨"PageDown", 109, []⟩,
   ⟨"Insert", 110, []⟩,
   ⟨"Delete", 111, []⟩]

/-- Definitions 5 of 5 of the shipped `keycodes!` table of `src/lib.rs`, in source order. -/
def keycodesPart5 : List KeyDef :=
  [⟨"Macro", 112, []⟩,
   ⟨"Mute", 113, []⟩,
   ⟨"VolumeDown", 114, []⟩,
   ⟨"VolumeUp", 115, []⟩,
   ⟨"Power", 116, []⟩,
   ⟨"KeyPadEqual", 117, []⟩,
   ⟨"KeyPadPlusMinus", 118, []⟩,
   ⟨"Pause", 119, []⟩,
   ⟨"KeyPadComma", 121, []⟩,
   ⟨"LeftMeta", 125, [.Ident "Meta", .Ident "Logo", .Ident "Win"]⟩,
   ⟨"RightMeta", 126, []⟩,
   ⟨"Help", 138, []⟩,
   ⟨"Menu", 139, []⟩,
   ⟨"Sleep", 142, []⟩,
   ⟨"Wakeup", 143, []⟩,
   ⟨"RotateDisplay", 153, [.Ident "Direction"]⟩,
   ⟨"NextSong", 163, []⟩,
   ⟨"PlayPause", 164, []⟩,
   ⟨"PreviousSong", 165, []⟩,
   ⟨"BrightnessDown", 224, []⟩,
   ⟨"BrightnessUp", 225, []⟩]

/-- The shipped alias table: the body of the `keycodes!` invocation in
`src/lib.rs`, one `KeyDef` per definition, with each `match [...]` list
transcribed in order. The Tab entry's char alias is the tab-symbol character
(the source file stores its bytes double-encoded); the apostrophe, grave and
tab-symbol char aliases are written via their code points. -/
def keycodesDefinitions : List KeyDef :=
  keycodesPart1 ++ keycodesPart2 ++ keycodesPart3 ++ keycodesPart4 ++ keycodesPart5

/-- First entry of a two-definition table whose char alias collides with the
second entry's. -/
def digit1Colliding : KeyDef := ⟨"Digit1", 2, [.LitChar '1']⟩

/-- Second entry of the colliding table: it reuses the char alias of the first. -/
def digit2Colliding : KeyDef := ⟨"Digit2", 3, [.LitChar '1']⟩

/-- A table in which the char spelling of the digit-one key belongs to two
different entries. -/
def collidingDefs : List KeyDef := [digit1Colliding, digit2Colliding]

/-- A table in which two entries share the identifier alias `Esc`, so the
generated `Key` enum would declare the variant twice. -/
def identCollidingDefs : List KeyDef :=
  [⟨"Escape", 1, [.Ident "Esc"]⟩, ⟨"ExtraEscape", 2, [.Ident "Esc"]⟩]

/-- One declared callback parameter, as the validation code sees it after the
filtering of `ParsedKeybind::key_parameter_types_delcared_in_fn`
(`macros/src/key.rs`): receivers and non-path-typed arguments are dropped, so
what remains is the pattern identifier and the type's identifier. This model
covers signatures whose kept parameter types are single-segment identifier
paths and whose patterns are identifiers, which is the shape every claim
speaks about. -/
structure FnParam where
  name : String
  ty : String
deriving DecidableEq, Repr

/-- Errors produced by `ParsedKeybind::validate_func_sign_against_key_params`
(`macros/src/key.rs`): a per-position type mismatch naming the expected tag
and the actual type identifier, or a missing trailing parameter for a tag. -/
inductive SignError
  | mismatch (pos : Nat) (expected : String) (got : String)
  | missing (tag : String) (pos : Nat)
deriving DecidableEq, Repr

/-- The check made for one `(i, declared_param)` pair of
`parameters_present().enumerate()` in `validate_func_sign_against_key_params`:
the i-th kept function parameter must exist and its type identifier must equal
the tag. -/
def signCheck (params : List FnParam) (i : Nat) (tag : String) : Except SignError Unit :=
  match params.get? i with
  | some q => if q.ty = tag then Except.ok () else Except.error (SignError.mismatch i tag q.ty)
  | none => Except.error (SignError.missing tag i)

/-- The `results` vector of `validate_func_sign_against_key_params`: one
`signCheck` per tag, with its enumeration index. -/
def signResults (params : List FnParam) : Nat → List String → List (Except SignError Unit)
  | _, [] => []
  | i, t :: ts => signCheck params i t :: signResults params (i + 1) ts

/-- Rust's `Result::is_err`. -/
def isErr : Except SignError Unit → Bool
  | .error _ => true
  | .ok _ => false

/-- Projection of the error of one result, used to aggregate them. -/
def errOf : Except SignError Unit → Option SignError
  | .error e => some e
  | .ok _ => none

/-- Embedding of `ParsedKeybind::validate_func_sign_against_key_params`
(`macros/src/key.rs`): if any per-tag result is an error, all errors are
combined (the source chains `syn::Error::extend`) and returned; otherwise the
check passes with `None`. -/
def validateFuncSignAgainstKeyParams (tags : List String) (params : List FnParam) :
    Option (List SignError) :=
  let results := signResults params 0 tags
  if results.any isErr then some (results.filterMap errOf) else none

/-- Errors produced by `ParsedKeybind::generate_key_parameter_assignments`
(`macros/src/key.rs`): the single forgot-key-parameters error, or one
excess-parameter error anchored at a declared parameter's pattern. -/
inductive GenError
  | forgotKeyParams
  | excess (name : String)
deriving DecidableEq, Repr

/-- Embedding of `ParsedKeybind::generate_key_parameter_assignments`
(`macros/src/key.rs`) up to the emitted assignments: with `v` the kept
function parameters and `tags` the parameter tags of the expression, an empty
`v` succeeds immediately; if `v` is longer than `tags` then either the single
forgot-key-parameters error (no tags at all) or one excess error per element
of the slice `v[v.len() - tags.len() ..]` is returned; otherwise the
assignments are generated (the pattern-shape check of the source cannot fail
in this model, where every pattern is an identifier). -/
def generateKeyParameterAssignments (tags : List String) (v : List FnParam) :
    Except (List GenError) Unit :=
  if v.length = 0 then Except.ok ()
  else if tags.length < v.length then
    if tags.length = 0 then
      Except.error [GenError.forgotKeyParams]
    else
      Except.error ((v.drop (v.length - tags.length)).map fun p => GenError.excess p.name)
  else Except.ok ()

/-- Tags of the expression's parameter terms in order, from
`ParsedKeybind::parameters_present`. -/
def parametersPresent (keys : List ParsedKey) : List String :=
  keys.filterMap fun k =>
    match k with
    | .Parameter tag => some tag
    | _ => none

/-- Embedding of `ParsedKeybind::validate_parameter_names`
(`macros/src/key.rs`): every parameter term whose tag is not in `KEY_PARAMS`
contributes one error (identified here by its tag); the errors are combined,
and the check passes with `none` when there are no invalid tags. -/
def validateParameterNames (keys : List ParsedKey) : Option (List String) :=
  let errs := (keys.filter fun k =>
      match k with
      | .Parameter _ => true
      | _ => false).filterMap fun k =>
    match k with
    | .Parameter tag => if (keyParamsGet tag).isNone then some tag else none
    | _ => none
  match errs with
  | [] => none
  | l => some l

/-- An error surfaced by the `AvKeybind` attribute, tagged by the stage that
produced it. -/
inductive ValidationError
  | unknownTag (tag : String)
  | sign (e : SignError)
  | gen (e : GenError)
deriving DecidableEq, Repr

/-- The validation pipeline of the `AvKeybind` attribute (`macros/src/lib.rs`,
steps 2b(i), 2b(ii) and 3a): each stage returns its aggregated errors and the
attribute returns at the first failing stage; the empty list means every stage
passed. -/
def avKeybindValidate (keys : List ParsedKey) (params : List FnParam) :
    List ValidationError :=
  match validateParameterNames keys with
  | some tags => tags.map ValidationError.unknownTag
  | none =>
    match validateFuncSignAgainstKeyParams (parametersPresent keys) params with
    | some errs => errs.map ValidationError.sign
    | none =>
      match generateKeyParameterAssignments (parametersPresent keys) params with
      | .error errs => errs.map ValidationError.gen
      | .ok _ => []

/-- Helper: the index search of `AvKeyParameter::value` succeeds exactly on
the members of the searched sequence. -/
theorem findValue_isSome (c : KeyCode) : ∀ (l : List KeyCode) (i : Nat),
    ((findValue i l c).isSome = true) ↔ c ∈ l := by
  intro l
  induction l with
  | nil => intro i; simp [findValue]
  | cons k ks ih =>
    intro i
    by_cases h : k = c
    · simp [findValue, h]
    · simp only [findValue, if_neg h, ih (i + 1), List.mem_cons]
      constructor
      · exact Or.inr
      · rintro (rfl | hm)
        · exact absurd rfl h
        · exact hm

/-- C4: for every key parameter kind, `value kind` is defined exactly on the
members of the kind's code sequence, is injective over those members, and
returns the labelled ordinal: the code of digit d (index d of `DIGIT_KEYS`)
maps to d, 0-indexed, and the code of Fn (index n-1 of `FUNCTION_KEYS`) maps
to n, 1-indexed. -/
theorem C4_parameter_value_bijection :
    (∀ kind c, ((AvKeyParameter.value kind c).isSome = true) ↔ c ∈ AvKeyParameter.keys kind)
  ∧ (∀ kind, ∀ c₁ ∈ AvKeyParameter.keys kind, ∀ c₂ ∈ AvKeyParameter.keys kind,
      AvKeyParameter.value kind c₁ = AvKeyParameter.value kind c₂ → c₁ = c₂)
  ∧ (∀ d, d < 10 → AvKeyParameter.value AvKeyParameter.DigitKey (DIGIT_KEYS.getD d 0) = some d)
  ∧ (∀ n, n < 13 → 1 ≤ n →
      AvKeyParameter.value AvKeyParameter.FunctionKey (FUNCTION_KEYS.getD (n - 1) 0) = some n) := by
  refine ⟨?_, by decide, by decide, by decide⟩
  intro kind c
  cases kind
  · simpa [AvKeyParameter.value, AvKeyParameter.keys] using findValue_isSome c DIGIT_KEYS 0
  · simpa [AvKeyParameter.value, AvKeyParameter.keys] using findValue_isSome c FUNCTION_KEYS 0

/-- Witness for C4 at concrete inputs: the digit key of label 3 and function
key F11, with every bound discharged. -/
theorem C4_parameter_value_bijection_witness :
    AvKeyParameter.value AvKeyParameter.DigitKey (DIGIT_KEYS.getD 3 0) = some 3
  ∧ AvKeyParameter.value AvKeyParameter.FunctionKey (FUNCTION_KEYS.getD 10 0) = some 11 :=
  ⟨C4_parameter_value_bijection.2.2.1 3 (by decide),
   C4_parameter_value_bijection.2.2.2 11 (by decide) (by decide)⟩

/-- C5: `AvKey` equality is the partial function given by cases. `Key` against
`Key` compares codes, `Key` against `Parameter` (in either order) tests
membership of the code in the kind's code sequence, and `Parameter` against
`Parameter` is undefined (the source's `unimplemented!()` panic, modelled as
`none`) for every pair of kinds. -/
theorem C5_avkey_partial_equality :
    (∀ a b, avKeyEq (AvKey.Key a) (AvKey.Key b) = some (a == b)
        ∧ (avKeyEq (AvKey.Key a) (AvKey.Key b) = some true ↔ a = b))
  ∧ (∀ c p, avKeyEq (AvKey.Key c) (AvKey.Parameter p) = some (AvKeyParameter.keys p |>.contains c)
        ∧ avKeyEq (AvKey.Parameter p) (AvKey.Key c) = some (AvKeyParameter.keys p |>.contains c)
        ∧ (avKeyEq (AvKey.Key c) (AvKey.Parameter p) = some true ↔ c ∈ AvKeyParameter.keys p))
  ∧ (∀ p q, avKeyEq (AvKey.Parameter p) (AvKey.Parameter q) = none) := by
  refine ⟨fun a b => ⟨rfl, ?_⟩, fun c p => ⟨rfl, rfl, ?_⟩, fun p q => rfl⟩
  · simp [avKeyEq]
  · simp [avKeyEq]

/-- Helper: membership characterisation of the `results` vector of the
signature check, with the enumeration index made explicit. -/
theorem mem_signResults (params : List FnParam) :
    ∀ (ts : List String) (i : Nat) (r : Except SignError Unit),
      r ∈ signResults params i ts ↔
        ∃ j, j < ts.length ∧ r = signCheck params (i + j) (ts.getD j "") := by
  intro ts
  induction ts with
  | nil => intro i r; simp [signResults]
  | cons t ts ih =>
    intro i r
    simp only [signResults, List.mem_cons, ih (i + 1)]
    constructor
    · rintro (rfl | ⟨j, hj, rfl⟩)
      · exact ⟨0, by simp, by simp⟩
      · refine ⟨j + 1, by simpa using Nat.succ_lt_succ hj, ?_⟩
        have h : i + 1 + j = i + (j + 1) := by omega
        simp [h]
    · rintro ⟨j, hj, rfl⟩
      cases j with
      | zero => left; simp
      | succ j =>
        right
        have hj2 : j < ts.length := by simp at hj; omega
        refine ⟨j, hj2, ?_⟩
        have h : i + 1 + j = i + (j + 1) := by omega
        simp [h]

/-- Helper: an in-bounds index makes `get?` return the `getD` value. -/
theorem get?_eq_getD {α : Type} (l : List α) (j : Nat) (d : α) (h : j < l.length) :
    l.get? j = some (l.getD j d) := by
  induction l generalizing j with
  | nil => simp at h
  | cons a l ih =>
    cases j with
    | zero => simp
    | succ j => simpa using ih j (by simpa using h)

/-- C7: when the number of kept declared parameters equals the number of tag
terms, the signature check succeeds exactly when every declared parameter's
type identifier textually equals the same-index tag; each mismatching
position contributes its own error naming the expected tag and the actual
type identifier, the returned errors consist exactly of those mismatches, and
the assignment generator raises no further error. -/
theorem C7_type_correspondence (tags : List String) (params : List FnParam)
    (h : params.length = tags.length) :
    (validateFuncSignAgainstKeyParams tags params = none ↔
        ∀ j, j < tags.length → (params.getD j ⟨"", ""⟩).ty = tags.getD j "")
  ∧ (∀ j, j < tags.length → (params.getD j ⟨"", ""⟩).ty ≠ tags.getD j "" →
        SignError.mismatch j (tags.getD j "") (params.getD j ⟨"", ""⟩).ty
          ∈ (validateFuncSignAgainstKeyParams tags params).getD [])
  ∧ (∀ e ∈ (validateFuncSignAgainstKeyParams tags params).getD [],
        ∃ j, j < tags.length ∧ (params.getD j ⟨"", ""⟩).ty ≠ tags.getD j ""
          ∧ e = SignError.mismatch j (tags.getD j "") (params.getD j ⟨"", ""⟩).ty)
  ∧ generateKeyParameterAssignments tags params = Except.ok () := by
  have hcheck : ∀ j, j < tags.length →
      signCheck params j (tags.getD j "") =
        if (params.getD j ⟨"", ""⟩).ty = tags.getD j "" then Except.ok ()
        else Except.error (SignError.mismatch j (tags.getD j "") (params.getD j ⟨"", ""⟩).ty) := by
    intro j hj
    unfold signCheck
    rw [get?_eq_getD params j ⟨"", ""⟩ (by omega)]
  refine ⟨?_, ?_, ?_, ?_⟩
  · unfold validateFuncSignAgainstKeyParams
    by_cases hany : (signResults params 0 tags).any isErr
    · simp only [hany, if_true]
      constructor
      · intro hsome; exact absurd hsome (by simp)
      · intro hall
        exfalso
        rcases List.any_eq_true.mp hany with ⟨r, hr, hisErr⟩
        rcases (mem_signResults params tags 0 r).mp hr with ⟨j, hj, rfl⟩
        rw [Nat.zero_add, hcheck j hj] at hisErr
        rw [if_pos (hall j hj)] at hisErr
        simp only [isErr] at hisErr
        exact Bool.noConfusion hisErr
    · simp only [hany, if_false]
      constructor
      · intro _ j hj
        by_contra hne
        apply hany
        apply List.any_eq_true.mpr
        refine ⟨signCheck params j (tags.getD j ""), ?_, ?_⟩
        · exact (mem_signResults params tags 0 _).mpr ⟨j, hj, by rw [Nat.zero_add]⟩
        · rw [hcheck j hj, if_neg hne]; rfl
      · intro _; rfl
  · intro j hj hne
    have hmem : Except.error (SignError.mismatch j (tags.getD j "") (params.getD j ⟨"", ""⟩).ty)
        ∈ signResults params 0 tags := by
      apply (mem_signResults params tags 0 _).mpr
      exact ⟨j, hj, by rw [Nat.zero_add, hcheck j hj, if_neg hne]⟩
    have hany : (signResults params 0 tags).any isErr = true :=
      List.any_eq_true.mpr ⟨_, hmem, rfl⟩
    unfold validateFuncSignAgainstKeyParams
    simp only [hany, if_true, Option.getD_some]
    exact List.mem_filterMap.mpr ⟨_, hmem, rfl⟩
  · intro e he
    unfold validateFuncSignAgainstKeyParams at he
    by_cases hany : (signResults params 0 tags).any isErr
    · simp only [hany, if_true, Option.getD_some] at he
      rcases List.mem_filterMap.mp he with ⟨r, hr, herr⟩
      rcases (mem_signResults params tags 0 r).mp hr with ⟨j, hj, rfl⟩
      rw [Nat.zero_add, hcheck j hj] at herr
      by_cases heq : (params.getD j ⟨"", ""⟩).ty = tags.getD j ""
      · rw [if_pos heq] at herr
        simp only [errOf] at herr
        exact Option.noConfusion herr
      · rw [if_neg heq] at herr
        simp only [errOf, Option.some.injEq] at herr
        exact ⟨j, hj, heq, herr.symm⟩
    · simp only [hany, if_false, Option.getD_none] at he
      exact absurd he (List.not_mem_nil e)
  · unfold generateKeyParameterAssignments
    split_ifs with h1 h2 h3
    · rfl
    · exfalso; omega
    · exfalso; omega
    · rfl

/-- Witness for C7: the expression tags `d`, `f` against the matching
declaration `(a : d, b : f)` validate successfully. -/
theorem C7_type_correspondence_witness :
    validateFuncSignAgainstKeyParams ["d", "f"] [⟨"a", "d"⟩, ⟨"b", "f"⟩] = none :=
  (C7_type_correspondence ["d", "f"] [⟨"a", "d"⟩, ⟨"b", "f"⟩] (by decide)).1.mpr (by decide)

/-- C8: the tag-validity check collects exactly the parameter-term
occurrences whose tag is missing from the catalog, passes exactly when every
tag resolves, and on the expression with tags `q`, `d`, `z` reports exactly
the two unknown tags `q` and `z`. -/
theorem C8_unknown_tag_aggregation (keys : List ParsedKey) :
    ((validateParameterNames keys).getD [])
        = (parametersPresent keys).filter (fun t => (keyParamsGet t).isNone)
  ∧ (validateParameterNames keys = none ↔
      (parametersPresent keys).all (fun t => (keyParamsGet t).isSome) = true)
  ∧ validateParameterNames
      [ParsedKey.Parameter "q", ParsedKey.Parameter "d", ParsedKey.Parameter "z"]
      = some ["q", "z"] := by
  have herrs : ((keys.filter fun k =>
      match k with
      | ParsedKey.Parameter _ => true
      | _ => false).filterMap fun k =>
        match k with
        | ParsedKey.Parameter tag => if (keyParamsGet tag).isNone then some tag else none
        | _ => none)
      = (parametersPresent keys).filter (fun t => (keyParamsGet t).isNone) := by
    induction keys with
    | nil => rfl
    | cons k ks ih =>
      cases k with
      | Name d => simpa [parametersPresent, List.filter_cons, List.filterMap_cons] using ih
      | Code n => simpa [parametersPresent, List.filter_cons, List.filterMap_cons] using ih
      | Parameter tag =>
        by_cases hp : keyParamsGet tag = none
        · simpa [parametersPresent, List.filter_cons, List.filterMap_cons, hp,
            Option.isNone_iff_eq_none] using ih
        · simpa [parametersPresent, List.filter_cons, List.filterMap_cons, hp,
            Option.isNone_iff_eq_none] using ih
  refine ⟨?_, ?_, by decide⟩
  · unfold validateParameterNames
    rw [herrs]
    cases hf : (parametersPresent keys).filter (fun t => (keyParamsGet t).isNone) with
    | nil => simp
    | cons a l => simp
  · unfold validateParameterNames
    rw [herrs]
    cases hf : (parametersPresent keys).filter (fun t => (keyParamsGet t).isNone) with
    | nil =>
      constructor
      · intro _
        rw [List.all_eq_true]
        intro t ht
        by_contra hsome
        have hmemf : t ∈ (parametersPresent keys).filter (fun t => (keyParamsGet t).isNone) :=
          List.mem_filter.mpr ⟨ht, by
            simpa [Option.isNone_iff_eq_none, Option.not_isSome_iff_eq_none] using hsome⟩
        rw [hf] at hmemf
        exact absurd hmemf (List.not_mem_nil t)
      · intro _; rfl
    | cons a l =>
      constructor
      · intro hcontra; exact Option.noConfusion hcontra
      · intro hall
        exfalso
        have ha : a ∈ (parametersPresent keys).filter (fun t => (keyParamsGet t).isNone) := by
          rw [hf]; exact List.mem_cons_self a l
        rcases List.mem_filter.mp ha with ⟨hmem, hnone⟩
        have hs := List.all_eq_true.mp hall a hmem
        rw [Option.isNone_iff_eq_none] at hnone
        rw [hnone] at hs
        exact Bool.noConfusion hs

/-- Helper: against an empty parameter list the signature check produces one
missing-parameter error per tag and nothing else. -/
theorem filterMap_signResults_nilParams :
    ∀ (ts : List String) (i : Nat),
      ((signResults ([] : List FnParam) i ts).filterMap errOf).length = ts.length
    ∧ ∀ e ∈ (signResults ([] : List FnParam) i ts).filterMap errOf,
        ∃ t k, e = SignError.missing t k := by
  intro ts
  induction ts with
  | nil => intro i; exact ⟨rfl, by simp [signResults]⟩
  | cons t ts ih =>
    intro i
    have hc : signCheck [] i t = Except.error (SignError.missing t i) := rfl
    constructor
    · simp [signResults, List.filterMap_cons, hc, errOf, (ih (i + 1)).1]
    · intro e he
      simp only [signResults, List.filterMap_cons, hc, errOf, List.mem_cons] at he
      rcases he with rfl | he
      · exact ⟨t, i, rfl⟩
      · exact (ih (i + 1)).2 e he

/-- C2 as amended: when the callback declares no kept parameters and the
expression has tags, the signature check fails with one missing-parameter
error per tag (not a single aggregate error), while the assignment generator
reports nothing; the single forgot-key-parameters error arises exactly in the
opposite situation, a non-empty parameter list against zero tags. -/
theorem C2_amended_missing_per_tag (tags : List String) (params : List FnParam) :
    (params = [] → tags ≠ [] →
      ∃ errs, validateFuncSignAgainstKeyParams tags params = some errs
        ∧ errs.length = tags.length
        ∧ ∀ e ∈ errs, ∃ t i, e = SignError.missing t i)
  ∧ (generateKeyParameterAssignments tags params = Except.error [GenError.forgotKeyParams]
      ↔ params ≠ [] ∧ tags = [])
  ∧ (params = [] → generateKeyParameterAssignments tags params = Except.ok ()) := by
  refine ⟨?_, ?_, ?_⟩
  · intro hp ht
    subst hp
    have hany : (signResults ([] : List FnParam) 0 tags).any isErr = true := by
      cases tags with
      | nil => exact absurd rfl ht
      | cons t ts => simp [signResults, signCheck, isErr]
    refine ⟨(signResults ([] : List FnParam) 0 tags).filterMap errOf, ?_, ?_, ?_⟩
    · simp [validateFuncSignAgainstKeyParams, hany]
    · exact (filterMap_signResults_nilParams tags 0).1
    · exact (filterMap_signResults_nilParams tags 0).2
  · unfold generateKeyParameterAssignments
    split_ifs with h1 h2 h3
    · have hpnil : params = [] := List.length_eq_zero.mp h1
      simp [hpnil]
    · have hpne : params ≠ [] := by
        intro hc; rw [hc] at h1; exact h1 rfl
      have htnil : tags = [] := List.length_eq_zero.mp h3
      simp [hpne, htnil]
    · constructor
      · intro heq
        exfalso
        injection heq with h'
        have hm : GenError.forgotKeyParams
            ∈ (params.drop (params.length - tags.length)).map (fun p => GenError.excess p.name) := by
          rw [h']; exact List.mem_singleton_self _
        rcases List.mem_map.mp hm with ⟨p, _, hpe⟩
        exact GenError.noConfusion hpe
      · rintro ⟨_, htnil⟩
        exact absurd (by simp [htnil] : tags.length = 0) h3
    · constructor
      · intro hc; simp at hc
      · rintro ⟨hpne, htnil⟩
        exfalso
        apply h2
        rw [htnil]
        simpa using Nat.pos_of_ne_zero h1
  · intro hp
    subst hp
    simp [generateKeyParameterAssignments]

/-- Witness for C2's amended statement at the expression tag list `d` and an
empty declaration. -/
theorem C2_amended_missing_per_tag_witness :
    (∃ errs, validateFuncSignAgainstKeyParams ["d"] [] = some errs
      ∧ errs.length = (["d"] : List String).length
      ∧ ∀ e ∈ errs, ∃ t i, e = SignError.missing t i)
  ∧ generateKeyParameterAssignments ["d"] [] = Except.ok () :=
  ⟨(C2_amended_missing_per_tag ["d"] []).1 rfl (by decide),
   (C2_amended_missing_per_tag ["d"] []).2.2 rfl⟩

/-- C2 counterexample: on the expression `Ctrl` + tag `d` with zero declared
parameters, the pipeline's output is one missing-parameter error from the
signature check, not the single forgot-key-parameters error the claim
predicts. -/
theorem C2_counterexample :
    avKeybindValidate [ParsedKey.Name (ParsedKeyDisc.Ident "Ctrl"), ParsedKey.Parameter "d"] []
      = [ValidationError.sign (SignError.missing "d" 0)] := by
  decide

/-- C3 as amended: the pipeline is fail-fast between checks; when tag
validity fails, exactly its errors are returned, and the signature check's
errors are returned only when tag validity passes. -/
theorem C3_amended_fail_fast (keys : List ParsedKey) (params : List FnParam) :
    (∀ tags, validateParameterNames keys = some tags →
        avKeybindValidate keys params = tags.map ValidationError.unknownTag)
  ∧ (validateParameterNames keys = none →
      ∀ errs, validateFuncSignAgainstKeyParams (parametersPresent keys) params = some errs →
        avKeybindValidate keys params = errs.map ValidationError.sign) := by
  constructor
  · intro tags h
    simp [avKeybindValidate, h]
  · intro h errs h2
    simp [avKeybindValidate, h, h2]

/-- Witness for C3's amended statement: an unknown tag makes the pipeline
return exactly the tag-validity errors. -/
theorem C3_amended_fail_fast_witness :
    avKeybindValidate [ParsedKey.Parameter "q"] [] = List.map ValidationError.unknownTag ["q"] :=
  (C3_amended_fail_fast [ParsedKey.Parameter "q"] []).1 ["q"] (by decide)

/-- C3 counterexample: on the expression with tags `q` and `d` and an empty
declaration, both checks fail, yet the pipeline returns only the tag-validity
error for `q`; the signature check's two errors are dropped. -/
theorem C3_counterexample :
    avKeybindValidate [ParsedKey.Parameter "q", ParsedKey.Parameter "d"] []
      = [ValidationError.unknownTag "q"]
  ∧ validateFuncSignAgainstKeyParams
      (parametersPresent [ParsedKey.Parameter "q", ParsedKey.Parameter "d"]) []
      = some [SignError.missing "q" 0, SignError.missing "d" 1] := by
  decide

/-- C1: evaluation at the failing inputs. With tags `d` against declared
parameters a, b, c (all typed d), the claim requires excess errors for both b
and c (the two parameters beyond position 1), but the slice
`v[v.len() - tags.len() ..]` flags only c. With tags `d`, `f` against
a : d, b : f, c : g, the claim requires one excess error for c alone, but the
code flags b (which the type-correspondence check itself accepts as matching
tag `f`) together with c. -/
theorem C1_excess_parameter_slice :
    avKeybindValidate [ParsedKey.Name (ParsedKeyDisc.Ident "Ctrl"), ParsedKey.Parameter "d"]
        [⟨"a", "d"⟩, ⟨"b", "d"⟩, ⟨"c", "d"⟩]
      = [ValidationError.gen (GenError.excess "c")]
  ∧ avKeybindValidate [ParsedKey.Parameter "d", ParsedKey.Parameter "f"]
        [⟨"a", "d"⟩, ⟨"b", "f"⟩, ⟨"c", "g"⟩]
      = [ValidationError.gen (GenError.excess "b"), ValidationError.gen (GenError.excess "c")] := by
  decide

/-- C6: lowering round-trips through the registry for names but not for
bracketed codes. A name registered with code c parses as a `Name` term and
lowers to `Key c` through the registry; a bracketed code parses as a `Code`
term and lowers to `Key` of that code in any registry, with no lookup; a bare
integer literal parses as a `Name` term whose lowering goes through the
registry's int-alias table, never directly as a raw code. -/
theorem C6_round_trip (reg : List KeyDef) (N : String) (c : Nat)
    (h : variantCode reg N = some c) :
    toLookup reg (parseKey (Token.ident N)) = some (AvKey.Key c)
  ∧ (∀ reg2 m, toLookup reg2 (parseKey (Token.bracket m)) = some (AvKey.Key m))
  ∧ (∀ n, parseKey (Token.litInt n) = ParsedKey.Name (ParsedKeyDisc.LitInt n))
  ∧ (∀ n, toLookup reg (parseKey (Token.litInt n)) = (lookupIntCode reg n).map AvKey.Key) := by
  refine ⟨?_, fun reg2 m => rfl, fun n => rfl, fun n => rfl⟩
  simp [toLookup, parseKey, h]

set_option maxRecDepth 100000 in
/-- Witness for C6: the alias `Ctrl` of the shipped table lowers to code 29. -/
theorem C6_round_trip_witness :
    toLookup keycodesDefinitions (parseKey (Token.ident "Ctrl")) = some (AvKey.Key 29) :=
  (C6_round_trip keycodesDefinitions "Ctrl" 29 (by decide)).1

/-- C9 counterexample: a table whose two entries share the char spelling `1`
is nevertheless accepted at build time (its generated enum has no duplicate
variant), and the generated lookup silently resolves the shared spelling to
the first entry's code. -/
theorem C9_counterexample :
    digit1Colliding.allAliases.contains (KeyIdentifier.LitChar '1') = true
  ∧ digit2Colliding.allAliases.contains (KeyIdentifier.LitChar '1') = true
  ∧ digit1Colliding.code = 2 ∧ digit2Colliding.code = 3
  ∧ buildAccepted collidingDefs = true
  ∧ lookupCharCode collidingDefs '1' = some 2 := by
  decide

set_option maxRecDepth 1000000 in
/-- C9 as amended: the shipped table's alias spellings are pairwise distinct,
so in it every spelling resolves to exactly one entry, and its generated enum
builds; an identifier-alias collision is rejected at build time through the
duplicate enum variant it generates, but a char (or int) alias collision
builds successfully, with the generated lookup keeping the first entry. -/
theorem C9_amended_alias_uniqueness :
    (keycodesDefinitions.flatMap aliasStrings).Nodup
  ∧ buildAccepted keycodesDefinitions = true
  ∧ buildAccepted identCollidingDefs = false
  ∧ buildAccepted collidingDefs = true
  ∧ lookupCharCode collidingDefs '1' = some 2 := by
  decide

set_option maxRecDepth 100000 in
/-- C10: the shipped table declares no integer alias at all, so the generated
int-alias lookup is empty and every bare integer `Name` term (like the `1` of
`Ctrl+1`) fails to lower to a key. -/
theorem C10_no_int_aliases :
    (keycodesDefinitions.flatMap (fun k => k.allAliases)).countP
        (fun a => match a with | KeyIdentifier.LitInt _ => true | _ => false) = 0
  ∧ (∀ n, lookupIntCode keycodesDefinitions n = none)
  ∧ (∀ n, toLookup keycodesDefinitions (parseKey (Token.litInt n)) = none) := by
  have harms : intArms keycodesDefinitions = [] := by decide
  have hnone : ∀ n, lookupIntCode keycodesDefinitions n = none := by
    intro n
    simp [lookupIntCode, harms]
  refine ⟨by decide, hnone, ?_⟩
  intro n
  simp [toLookup, parseKey, hnone n]
